import Mathlib

/-!
Verification of the custom-collector-extension-layers build and publish
pipeline.  Python strings are modelled as lists of characters (`Str`); each
definition is a shallow embedding of the corresponding Python function from
the repository (`scripts/` and `tools/scripts/`).
-/

/-- Python strings are modelled as lists of characters. -/
abbrev Str := List Char

/-- Turn a Lean string literal into its character list. -/
def str (s : String) : Str := s.data

/-- Python truthiness of an optional string: `None` and `""` are falsy. -/
def truthyS (o : Option Str) : Bool :=
  match o with
  | none => false
  | some s => !s.isEmpty

/-- Python's substring test `needle in haystack`, as a boolean scan over the
character list. -/
def substrOf (needle : Str) : Str → Bool
  | [] => needle.isEmpty
  | c :: rest => needle.isPrefixOf (c :: rest) || substrOf needle rest

/- ## Distribution resolver (spec section 4.1) -/

/-- Error cases of the distribution resolver, spec section 4.1. -/
inductive DistributionError where
  | distributionNotFound : DistributionError
  | circularInheritance : DistributionError
deriving DecidableEq

/-- Modelled from the spec: a distribution entry of name, base and tags (spec
section 3).  The implementation `otel_layer_utils/distribution_utils.py`
(function `resolve_build_tags`) is not among the provided sources; only its
caller `get_build_tags_list` in `tools/scripts/build_extension_layer.py` is. -/
structure SpecDistribution where
  base : Option Str
  tags : List Str
deriving DecidableEq

/-- Append each tag of `tags` to `acc` unless already present: first
occurrence wins, de-duplication by exact string equality. -/
def dedupAppend (acc : List Str) (tags : List Str) : List Str :=
  tags.foldl (fun a t => if a.contains t then a else a ++ [t]) acc

/-- Look up a distribution by name in the configuration table. -/
def lookupDist (table : List (Str × SpecDistribution)) (name : Str) :
    Option SpecDistribution :=
  (table.find? (fun p => p.1 == name)).map (fun p => p.2)

/-- Modelled from the spec: walk the `base` chain upward collecting each
ancestor's own tag list; fail with `circularInheritance` when a name is
revisited before reaching a root, and with `distributionNotFound` when a name
is absent from the table (spec section 4.1).  The tag lists are returned in
root-to-leaf order.  The fuel argument only bounds the walk; it exceeds the
number of distinct table names, so it is exhausted only by a cycle. -/
def resolveChain (table : List (Str × SpecDistribution)) :
    Nat → List Str → Str → Except DistributionError (List (List Str))
  | 0, _, _ => .error .circularInheritance
  | fuel + 1, visited, name =>
    if visited.contains name then
      .error .circularInheritance
    else
      match lookupDist table name with
      | none => .error .distributionNotFound
      | some d =>
        match d.base with
        | none => .ok [d.tags]
        | some b =>
          (resolveChain table fuel (name :: visited) b).map (fun ls => ls ++ [d.tags])

/-- Modelled from the spec: `resolve(distributionName, table)` flattens the
base chain into a final ordered, de-duplicated tag list, ancestors' tags
applied before the distribution's own (spec section 4.1). -/
def resolve (name : Str) (table : List (Str × SpecDistribution)) :
    Except DistributionError (List Str) :=
  (resolveChain table (table.length + 1) [] name).map (fun ls => ls.foldl dedupAppend [])

/- ## Hard-coded distribution table of `scripts/build_extension_layer.py` -/

/-- Embedded from `scripts/build_extension_layer.py` (`get_build_tags`): the
static `tags_map` from distribution name to comma-joined Go build tags. -/
def tags_map : List (Str × Str) :=
  [(str "minimal",
    str "lambdacomponents.custom,lambdacomponents.receiver.otlp,lambdacomponents.processor.batch"),
   (str "clickhouse",
    str "lambdacomponents.custom,lambdacomponents.receiver.otlp,lambdacomponents.processor.batch,lambdacomponents.exporter.clickhouse"),
   (str "clickhouse-otlphttp",
    str "lambdacomponents.custom,lambdacomponents.receiver.otlp,lambdacomponents.processor.batch,lambdacomponents.exporter.clickhouse,lambdacomponents.exporter.otlphttp"),
   (str "full",
    str "lambdacomponents.custom,lambdacomponents.all"),
   (str "default", str "")]

/-- Embedded from `scripts/build_extension_layer.py` (`get_build_tags`):
determine the Go build tags for a distribution; the `custom` distribution uses
the user-supplied tags, ensuring `lambdacomponents.custom` is present. -/
def get_build_tags (distribution : Str) (custom_tags_str : Str) : Str :=
  if distribution == str "custom" then
    if !custom_tags_str.isEmpty then
      if substrOf (str "lambdacomponents.custom") custom_tags_str then
        custom_tags_str
      else
        str "lambdacomponents.custom," ++ custom_tags_str
    else
      str "lambdacomponents.custom"
  else
    (((tags_map.find? (fun p => p.1 == distribution)).map (fun p => p.2)).getD [])

/- ## Layer identity: `construct_layer_name` (both publisher revisions) -/

/-- ASCII letter, the regex class `[a-zA-Z]` by code point. -/
def isAsciiLetter (c : Char) : Bool :=
  (65 ≤ c.toNat && c.toNat ≤ 90) || (97 ≤ c.toNat && c.toNat ≤ 122)

/-- ASCII digit, the regex class `[0-9]` by code point. -/
def isAsciiDigit (c : Char) : Bool :=
  48 ≤ c.toNat && c.toNat ≤ 57

/-- Character class `[a-zA-Z0-9_-]` of the publisher's sanitization regex. -/
def isAllowedChar (c : Char) : Bool :=
  isAsciiLetter c || isAsciiDigit c || c == '_' || c == '-'

/-- One character of `re.sub(r'[^a-zA-Z0-9_-]', '_', s)`. -/
def sanChar (c : Char) : Char :=
  if isAllowedChar c then c else '_'

/-- Embedded from `lambda_layer_publisher.py`: `re.sub(r'[^a-zA-Z0-9_-]', '_', s)`:
every character outside the allowed class becomes an underscore. -/
def sanitize (s : Str) : Str :=
  s.map sanChar

/-- Test of `re.match(r'^[0-9]', s)`: the string starts with a digit. -/
def startsWithDigit (s : Str) : Bool :=
  match s with
  | [] => false
  | c :: _ => isAsciiDigit c

/-- The registry naming pattern of the spec: a string matches
`^[a-zA-Z][a-zA-Z0-9_-]*$` when its first character is an ASCII letter and
every later character is in the allowed class. -/
def matchesNamePattern (s : Str) : Bool :=
  match s with
  | [] => false
  | c :: rest => isAsciiLetter c && rest.all isAllowedChar

/-- Embedded from `lambda_layer_publisher.py`: `re.sub(r'^v', '', s)` strips a
single leading `v`. -/
def stripLeadingV (s : Str) : Str :=
  match s with
  | 'v' :: rest => rest
  | s => s

/-- Embedded from `lambda_layer_publisher.py`:
`re.sub(r'.*\/[^0-9\.]*', '', github_ref)`.  When the ref contains a slash the
greedy match removes everything through the last slash plus the following run
of characters that are neither digits nor dots; a ref without a slash is
returned unchanged (the pattern requires a slash). -/
def extractVersionFromRef (ref : Str) : Str :=
  if ref.contains '/' then
    ((ref.reverse.takeWhile (fun c => c ≠ '/')).reverse).dropWhile
      (fun c => !(isAsciiDigit c || c == '.'))
  else
    ref

/-- Embedded from `lambda_layer_publisher.py`: Python
`architecture.replace("amd64", "x86_64")`, the left-to-right non-overlapping
substring replacement. -/
def replaceAmd64 : Str → Str
  | 'a' :: 'm' :: 'd' :: '6' :: '4' :: rest => str "x86_64" ++ replaceAmd64 rest
  | c :: rest => c :: replaceAmd64 rest
  | [] => []

/-- Embedded from `construct_layer_name` (shared verbatim by both publisher
revisions): version selection for the name, with precedence explicit version,
then collector version with a leading `v` stripped, then a value derived from
the `GITHUB_REF` environment value, then the literal `latest`. -/
def layerVersionChoice (version collector_version : Option Str) (github_ref : Str) : Str :=
  if truthyS version then version.getD []
  else if truthyS collector_version then stripLeadingV (collector_version.getD [])
  else if !github_ref.isEmpty then
    (if (extractVersionFromRef github_ref).isEmpty then str "latest"
     else extractVersionFromRef github_ref)
  else str "latest"

/-- The layer name before the final sanitization pass: base name, then the
optional architecture and distribution parts, the cleaned version part, and
the always-appended release group. -/
def layerNameRaw (base_name : Str) (architecture distribution : Option Str)
    (layer_version : Str) (release_group : Str) : Str :=
  let n2 := if truthyS architecture then base_name ++ str "-" ++ architecture.getD [] else base_name
  let n3 := if truthyS distribution then n2 ++ str "-" ++ distribution.getD [] else n2
  let n4 := if !layer_version.isEmpty then n3 ++ str "-" ++ sanitize layer_version else n3
  n4 ++ str "-" ++ release_group

/-- Embedded from `construct_layer_name` (the part shared verbatim by the
`scripts/` and `tools/scripts/` revisions): assemble the layer name, sanitize
it, and prefix `layer-` when the sanitized name starts with a digit.  Returns
the cleaned name and the cleaned version string used inside it. -/
def layerNameCore (base_name : Str) (architecture distribution version collector_version : Option Str)
    (release_group : Str) (github_ref : Str) : Str × Str :=
  let layer_version := layerVersionChoice version collector_version github_ref
  let layer_version_str_for_naming :=
    if !layer_version.isEmpty then sanitize layer_version else []
  let layer_name_cleaned :=
    sanitize (layerNameRaw base_name architecture distribution layer_version release_group)
  let final :=
    if startsWithDigit layer_name_cleaned then str "layer-" ++ layer_name_cleaned
    else layer_name_cleaned
  (final, layer_version_str_for_naming)

/-- Embedded from `tools/scripts/lambda_layer_publisher.py` (line 103): the
architecture string defaults to `x86_64` when no architecture is given. -/
def arch_str_tools (architecture : Option Str) : Str :=
  if truthyS architecture then replaceAmd64 (architecture.getD []) else str "x86_64"

/-- Embedded from `scripts/lambda_layer_publisher.py` (lines 121-125): the
architecture string defaults to `x86_64 arm64` when no architecture is given. -/
def arch_str_scripts (architecture : Option Str) : Str :=
  if truthyS architecture then replaceAmd64 (architecture.getD []) else str "x86_64 arm64"

/-- Embedded from `tools/scripts/lambda_layer_publisher.py`
(`construct_layer_name`): returns (cleaned layer name, architecture string,
version string used in the name). -/
def construct_layer_name (base_name : Str)
    (architecture distribution version collector_version : Option Str)
    (release_group : Str) (github_ref : Str) : Str × Str × Str :=
  let core := layerNameCore base_name architecture distribution version collector_version
    release_group github_ref
  (core.1, arch_str_tools architecture, core.2)

/-- Embedded from `scripts/lambda_layer_publisher.py` (`construct_layer_name`):
identical to the `tools/scripts` revision except for the architecture string
default. -/
def construct_layer_name_scripts (base_name : Str)
    (architecture distribution version collector_version : Option Str)
    (release_group : Str) (github_ref : Str) : Str × Str × Str :=
  let core := layerNameCore base_name architecture distribution version collector_version
    release_group github_ref
  (core.1, arch_str_scripts architecture, core.2)

/- ## Publish protocol: `check_layer_exists`, `publish_layer` (both revisions) -/

/-- One existing layer version as listed by the registry: its identity (ARN)
and its free-text description.  `list_layer_versions` returns versions in the
registry's own order, most recent first. -/
structure LayerInfo where
  arn : Str
  description : Str
deriving DecidableEq

/-- Embedded from `check_layer_exists` (both revisions): the loop over existing
layer versions looking for the current MD5 inside a description, returning the
first match in listing order. -/
def find_md5_match (layers : List LayerInfo) (current_md5 : Str) : Option Str :=
  match layers with
  | [] => none
  | l :: rest =>
    if substrOf current_md5 l.description then some l.arn
    else find_md5_match rest current_md5

/-- Embedded from `check_layer_exists` (both revisions): `none` models the
registry's "layer name has no versions" result (`ResourceNotFoundException`;
the error path of the code also yields a falsy result and is reported the same
way).  With versions present, return the first version whose description
contains the hash, else the first-listed (most recent) version as a fallback
with `reuse = false`. -/
def check_layer_exists (existing : Option (List LayerInfo)) (current_md5 : Str) :
    Bool × Option Str :=
  match existing with
  | none => (false, none)
  | some [] => (false, none)
  | some (first :: rest) =>
    match find_md5_match (first :: rest) current_md5 with
    | some arn => (true, some arn)
    | none => (false, some first.arn)

/-- Embedded from `publish_layer` (both revisions): the description before the
length check, `Build Tags: ... | MD5: ...`; an absent or empty build-tags
string shows as `N/A`. -/
def rawDescription (build_tags : Option Str) (md5_hash : Str) : Str :=
  str "Build Tags: " ++ (if truthyS build_tags then build_tags.getD [] else str "N/A")
    ++ str " | MD5: " ++ md5_hash

/-- Embedded from `publish_layer` (both revisions): truncate the description to
253 characters plus `...` when it exceeds the 256-character registry limit. -/
def mkDescription (build_tags : Option Str) (md5_hash : Str) : Str :=
  let description := rawDescription build_tags md5_hash
  if description.length > 256 then description.take 253 ++ str "..."
  else description

/-- Registry effect of a successful `publish_layer` call: the new version is
prepended, since the registry lists versions most recent first. -/
def publish_layer_registry (registry : List LayerInfo) (new_arn : Str)
    (build_tags : Option Str) (md5_hash : Str) : List LayerInfo :=
  { arn := new_arn, description := mkDescription build_tags md5_hash } :: registry

/-- Embedded from `main` (both revisions), steps 3-4 restricted to the registry:
check for an existing version with the same hash; reuse it when found,
otherwise publish a new version (assumed to succeed, yielding `new_arn`).
Returns the registry afterwards, the `skip_publish` flag, and the resulting
layer ARN. -/
def runPublishOnce (registry : List LayerInfo) (md5_hash : Str)
    (build_tags : Option Str) (new_arn : Str) : List LayerInfo × Bool × Option Str :=
  match check_layer_exists (some registry) md5_hash with
  | (true, arn) => (registry, true, arn)
  | (false, _) => (publish_layer_registry registry new_arn build_tags md5_hash, false, some new_arn)

/- ## Metadata store: `write_metadata_to_dynamodb`, `check_and_repair_dynamodb` -/

/-- Metadata record written to the key-value store (fields of the `metadata`
dictionaries in `lambda_layer_publisher.py`). -/
structure LayerMetadata where
  pk : Str
  sk : Str
  layer_arn : Str
  region : Str
  base_name : Str
  architecture : Option Str
  distribution : Str
  layer_version_str : Str
  collector_version_input : Option Str
  md5_hash : Str
  publish_timestamp : Str
  compatible_runtimes : Option (List Str)
  public : Option Bool
deriving DecidableEq

/-- The metadata store: an association list keyed by the primary key `pk`
(the `tools/scripts` revision keys `get_item` by `pk` alone). -/
abbrev MetaStore := List (Str × LayerMetadata)

/-- Embedded from `otel_layer_utils/dynamodb_utils.py` (`get_item`): fetch by
primary key. -/
def get_item (store : MetaStore) (pk : Str) : Option LayerMetadata :=
  (store.find? (fun p => p.1 == pk)).map (fun p => p.2)

/-- Embedded from `otel_layer_utils/dynamodb_utils.py` (`write_item` /
`put_item`): upsert by primary key, replacing an existing entry. -/
def put_item (store : MetaStore) (item : LayerMetadata) : MetaStore :=
  if (store.find? (fun p => p.1 == item.pk)).isSome then
    store.map (fun p => if p.1 == item.pk then (p.1, item) else p)
  else
    store ++ [(item.pk, item)]

/-- Embedded from `lambda_layer_publisher.py` (`write_metadata_to_dynamodb`):
validate that the required fields are present and truthy, then write; an
invalid record is rejected without a write.  Returns the store and a success
flag. -/
def write_metadata_to_dynamodb (store : MetaStore) (metadata : LayerMetadata) :
    MetaStore × Bool :=
  if metadata.pk.isEmpty || metadata.sk.isEmpty || metadata.layer_arn.isEmpty
      || metadata.region.isEmpty || metadata.distribution.isEmpty
      || !truthyS metadata.architecture || metadata.md5_hash.isEmpty then
    (store, false)
  else
    (put_item store metadata, true)

/-- Arguments of the publisher CLI relevant to the metadata paths. -/
structure PublisherArgs where
  layer_name : Str
  region : Str
  architecture : Option Str
  runtimes : Option Str
  distribution : Str
  collector_version : Option Str
deriving DecidableEq

/-- Python's `str.split()` on whitespace, dropping empty pieces. -/
def splitWsAux : List Char → List Char → List Str
  | [], acc => if acc.isEmpty then [] else [acc.reverse]
  | c :: rest, acc =>
    if c.isWhitespace then
      (if acc.isEmpty then splitWsAux rest [] else acc.reverse :: splitWsAux rest [])
    else splitWsAux rest (c :: acc)

/-- Python's `s.split()` with no separator argument. -/
def splitWs (s : Str) : List Str := splitWsAux s []

/-- Embedded from `tools/scripts/lambda_layer_publisher.py`
(`check_and_repair_dynamodb`): look the existing layer ARN up in the store; if
a record is already present do nothing, otherwise synthesize a record from the
currently-supplied inputs and attempt to write it.  (The revision's error path,
when the lookup itself fails, also performs no write.) -/
def check_and_repair_dynamodb (store : MetaStore) (args : PublisherArgs)
    (existing_layer_arn : Str) (md5_hash : Str) (layer_version_str : Str)
    (now : Str) : MetaStore :=
  let pk := existing_layer_arn
  match get_item store pk with
  | some _ => store
  | none =>
    let metadata : LayerMetadata :=
      { pk := pk
        sk := args.distribution
        layer_arn := existing_layer_arn
        region := args.region
        base_name := args.layer_name
        architecture := args.architecture
        distribution := args.distribution
        layer_version_str := layer_version_str
        collector_version_input := args.collector_version
        md5_hash := md5_hash
        publish_timestamp := now
        compatible_runtimes := (args.runtimes.map splitWs)
        public := none }
    (write_metadata_to_dynamodb store metadata).1

/-- Concrete record used by the C4 witness. -/
def sampleRecord : LayerMetadata :=
  { pk := str "arn:aws:lambda:v1"
    sk := str "clickhouse"
    layer_arn := str "arn:aws:lambda:v1"
    region := str "us-east-1"
    base_name := str "custom-otel-collector"
    architecture := some (str "amd64")
    distribution := str "clickhouse"
    layer_version_str := str "0_119_0"
    collector_version_input := some (str "v0.119.0")
    md5_hash := str "0123456789abcdef"
    publish_timestamp := str "2025-01-01T00:00:00"
    compatible_runtimes := none
    public := none }

/-- Concrete CLI arguments used by the C4 witness. -/
def sampleArgs : PublisherArgs :=
  { layer_name := str "custom-otel-collector"
    region := str "us-east-1"
    architecture := some (str "amd64")
    runtimes := none
    distribution := str "clickhouse"
    collector_version := some (str "v0.119.0") }

/-- A 205-character build-tags string, long enough to overflow the limit. -/
def longTagsA : Str := List.replicate 205 'a'

/-- A 32-character hexadecimal-shaped hash, as `calculate_md5` produces. -/
def md5FF : Str := List.replicate 32 'f'

/- ## Post-publish flow of `main` (both revisions) -/

/-- Observable outcome of the post-publish part of `main`: whether the new
version is still in place (the code never deletes a published version),
whether the metadata write was reached, the exit code, and the ARN used for
the summary output. -/
structure MainPublishOutcome where
  publishedArn : Option Str
  metadataWriteAttempted : Bool
  metadataWriteSucceeded : Bool
  exitCode : Nat
  summaryArn : Option Str
deriving DecidableEq

/-- Embedded from `main` (both revisions), the `if not skip_publish` branch:
after `publish_layer` returns `publishedArn`, the public grant is attempted
only when requested; when `public_success` is false the metadata write is
skipped with a warning; a failed publish exits with code 1.  In every
non-exiting case the summary is generated from the new ARN. -/
def mainPublishBranch (publishedArn : Option Str) (publicRequested grantOk dynamoOk : Bool) :
    MainPublishOutcome :=
  match publishedArn with
  | some arn =>
    let public_success := if publicRequested then grantOk else true
    if public_success then
      { publishedArn := some arn
        metadataWriteAttempted := true
        metadataWriteSucceeded := dynamoOk
        exitCode := 0
        summaryArn := some arn }
    else
      { publishedArn := some arn
        metadataWriteAttempted := false
        metadataWriteSucceeded := false
        exitCode := 0
        summaryArn := some arn }
  | none =>
    { publishedArn := none
      metadataWriteAttempted := false
      metadataWriteSucceeded := false
      exitCode := 1
      summaryArn := none }

/- ## Dependency mapper: `add_dependencies` (`tools/scripts/build_extension_layer.py`) -/

/-- Value of one entry of the dependency table: the YAML allows a single module
string or a list of module strings (any other shape is skipped with a warning
and contributes nothing). -/
inductive DepModules where
  | single (m : Str) : DepModules
  | many (ms : List Str) : DepModules
deriving DecidableEq

/-- Modules contributed by a dependency-table entry value. -/
def depModuleList (v : DepModules) : List Str :=
  match v with
  | .single m => [m]
  | .many ms => ms

/-- Python `t.rsplit(".", 1)[0]`: everything before the last dot, or the whole
string when it has no dot. -/
def rsplitDotHead (t : Str) : Str :=
  let afterRev := t.reverse.takeWhile (fun c => c ≠ '.')
  if afterRev.length = t.length then t else t.take (t.length - afterRev.length - 1)

/-- Embedded from `add_dependencies`: `tag.rsplit(".", 1)[0] + "."`, the prefix
shared by a subgroup wildcard such as `lambdacomponents.exporter.all`. -/
def subgroupStem (t : Str) : Str :=
  rsplitDotHead t ++ str "."

/-- Embedded from `add_dependencies`: presence of the global wildcard tag. -/
def hasGlobalAll (active : List Str) : Bool :=
  active.contains (str "lambdacomponents.all")

/-- Embedded from `add_dependencies`: the active tags that end in `.all` other
than the global wildcard itself. -/
def allSubgroupTags (active : List Str) : List Str :=
  active.filter (fun t => (str ".all").isSuffixOf t && !(t == str "lambdacomponents.all"))

/-- Embedded from `add_dependencies`: the prefixes of the subgroup wildcards. -/
def allSubgroupStems (active : List Str) : List Str :=
  (allSubgroupTags active).map subgroupStem

/-- Embedded from `add_dependencies`: a dependency-table entry is included when
its tag is directly active, or the global wildcard is active, or a subgroup
wildcard's prefix matches the entry's tag. -/
def shouldInclude (active : List Str) (dep_tag : Str) : Bool :=
  active.contains dep_tag || hasGlobalAll active
    || (allSubgroupStems active).any (fun p => p.isPrefixOf dep_tag)

/-- Add a module to the accumulator unless already present (Python `set.add`,
modelled as an order-preserving duplicate-free list). -/
def addUnique (acc : List Str) (m : Str) : List Str :=
  if acc.contains m then acc else acc ++ [m]

/-- Add the modules of one entry value (Python `set.update` / `set.add`). -/
def addDepModules (acc : List Str) (v : DepModules) : List Str :=
  (depModuleList v).foldl addUnique acc

/-- Embedded from `add_dependencies` (`tools/scripts/build_extension_layer.py`,
lines 146-222): the set `modules_to_get` computed from the dependency table
and the active build tags; an empty or absent table contributes nothing (the
function returns early). -/
def modules_to_get (dependency_mappings : List (Str × DepModules)) (active : List Str) :
    List Str :=
  if dependency_mappings.isEmpty then []
  else
    dependency_mappings.foldl
      (fun acc p => if shouldInclude active p.1 then addDepModules acc p.2 else acc) []

/- ## C1 -/

/-- Example table from the spec scenario: `minimal` is a root with three tags
and `clickhouse` inherits from it, adding one tag. -/
def exampleTable : List (Str × SpecDistribution) :=
  [(str "minimal",
    { base := none,
      tags := [str "custom", str "otlp-receiver", str "batch-processor"] }),
   (str "clickhouse",
    { base := some (str "minimal"), tags := [str "clickhouse-exporter"] })]

/- ## Helper lemmas -/

/-- The boolean substring scan decides the `List.IsInfix` relation. -/
theorem substrOf_correct (needle hay : Str) :
    substrOf needle hay = true ↔ needle <:+: hay := by
  induction hay with
  | nil =>
    simp [substrOf, List.isEmpty_iff]
  | cons c rest ih =>
    simp [substrOf, ih, List.infix_cons_iff]

/-- The matching loop of `check_layer_exists` returns the ARN of the first
listed version whose description contains the hash. -/
theorem find_md5_match_eq_find (layers : List LayerInfo) (md5 : Str) :
    find_md5_match layers md5 =
      (layers.find? (fun l => substrOf md5 l.description)).map (fun l => l.arn) := by
  induction layers with
  | nil => rfl
  | cons l rest ih =>
    simp only [find_md5_match, List.find?_cons]
    cases h : substrOf md5 l.description <;> simp [h, ih]

/- ## C2 -/

/-- C2: with versions listed in the registry's order, `check_layer_exists`
returns `(true, arn)` for the first listed version whose description contains
the hash when one exists; `(false, first-listed arn)` when versions exist but
none matches; and `(false, none)` when the name has no versions. -/
theorem check_layer_exists_cases (layers : List LayerInfo) (md5 : Str) :
    (check_layer_exists (some layers) md5 =
      match layers.find? (fun l => substrOf md5 l.description) with
      | some l => (true, some l.arn)
      | none =>
        match layers with
        | [] => ((false : Bool), (none : Option Str))
        | first :: _ => (false, some first.arn)) ∧
    check_layer_exists none md5 = (false, none) := by
  refine ⟨?_, rfl⟩
  cases layers with
  | nil => rfl
  | cons first rest =>
    have h := find_md5_match_eq_find (first :: rest) md5
    cases hf : (first :: rest).find? (fun l => substrOf md5 l.description) with
    | none => simp [check_layer_exists, h, hf]
    | some l => simp [check_layer_exists, h, hf]

/- ## C10 -/

/-- C10: `check_layer_exists` never reports reuse without an identity: when its
first component is `true`, the second is the ARN of some listed version whose
description contains the hash. -/
theorem check_layer_exists_reuse_needs_arn (existing : Option (List LayerInfo)) (md5 : Str)
    (h : (check_layer_exists existing md5).1 = true) :
    ∃ layers l, existing = some layers ∧ l ∈ layers ∧
      substrOf md5 l.description = true ∧
      (check_layer_exists existing md5).2 = some l.arn := by
  cases existing with
  | none => simp [check_layer_exists] at h
  | some layers =>
    cases layers with
    | nil => simp [check_layer_exists] at h
    | cons first rest =>
      have hm := find_md5_match_eq_find (first :: rest) md5
      cases hf : (first :: rest).find? (fun l => substrOf md5 l.description) with
      | none => simp [check_layer_exists, hm, hf] at h
      | some l =>
        have hp := List.find?_some hf
        refine ⟨first :: rest, l, rfl, List.mem_of_find?_eq_some hf, hp, ?_⟩
        simp [check_layer_exists, hm, hf]

/-- Witness for C10 at a concrete registry state. -/
theorem check_layer_exists_reuse_needs_arn_witness :
    (check_layer_exists (some [⟨str "arn-one", str "md5 deadbeef"⟩]) (str "deadbeef")).1 = true ∧
    (∃ layers l,
      (some [⟨str "arn-one", str "md5 deadbeef"⟩] : Option (List LayerInfo)) = some layers ∧
      l ∈ layers ∧ substrOf (str "deadbeef") l.description = true ∧
      (check_layer_exists (some [⟨str "arn-one", str "md5 deadbeef"⟩]) (str "deadbeef")).2
        = some l.arn) :=
  ⟨by decide, check_layer_exists_reuse_needs_arn _ _ (by decide)⟩

/- ## C4 -/

/-- C4: the repair path is a no-op when a metadata record already exists for
the artifact: the store, and hence the stored record, is unchanged. -/
theorem repair_preserves_existing_record (store : MetaStore) (args : PublisherArgs)
    (arn md5 lvs now : Str) (r : LayerMetadata)
    (h : get_item store arn = some r) :
    check_and_repair_dynamodb store args arn md5 lvs now = store := by
  simp [check_and_repair_dynamodb, h]

/-- Witness for C4 at a concrete store holding a record. -/
theorem repair_preserves_existing_record_witness :
    get_item [(str "arn:aws:lambda:v1", sampleRecord)] (str "arn:aws:lambda:v1")
      = some sampleRecord ∧
    check_and_repair_dynamodb [(str "arn:aws:lambda:v1", sampleRecord)] sampleArgs
      (str "arn:aws:lambda:v1") (str "0123456789abcdef") (str "0_119_0")
      (str "2025-06-01T00:00:00")
      = [(str "arn:aws:lambda:v1", sampleRecord)] :=
  ⟨by decide,
   repair_preserves_existing_record _ sampleArgs _ _ _ _ sampleRecord (by decide)⟩

/- ## C5 -/

/-- C5 counterexample: with a freshly published version, public access
requested, and a failed grant, the metadata write is not attempted (the claim
asserts it would be). -/
theorem grant_failure_skips_metadata_cex :
    (mainPublishBranch (some (str "arn:new")) true false true).metadataWriteAttempted
      = false := by
  decide

/-- C5 amended: when the public-read grant fails after a new publish, the
publish is not rolled back (ARN kept, exit code 0, summary produced from the
new ARN) but the metadata write is skipped. -/
theorem grant_failure_amended (arn : Str) (dynamoOk : Bool) :
    mainPublishBranch (some arn) true false dynamoOk =
      { publishedArn := some arn
        metadataWriteAttempted := false
        metadataWriteSucceeded := false
        exitCode := 0
        summaryArn := some arn } := rfl

/- ## C8 -/

/-- C8 counterexample: in the `tools/scripts` revision, identity construction
with no architecture yields the single architecture `x86_64`, which does not
mention `arm64` at all. -/
theorem arch_default_single_cex :
    (construct_layer_name (str "collector") none none none none (str "prod") []).2.1
      = str "x86_64" ∧
    substrOf (str "arm64")
      ((construct_layer_name (str "collector") none none none none (str "prod") []).2.1)
      = false := by
  decide

/-- C8 amended: with no architecture given, the `scripts/` revision marks the
layer compatible with both `x86_64` and `arm64`, while the `tools/scripts`
revision defaults to `x86_64` alone. -/
theorem arch_default_amended (base : Str) (arch dist ver coll : Option Str)
    (rg : Str) (ref : Str) (h : truthyS arch = false) :
    (construct_layer_name_scripts base arch dist ver coll rg ref).2.1 = str "x86_64 arm64" ∧
    (construct_layer_name base arch dist ver coll rg ref).2.1 = str "x86_64" := by
  simp [construct_layer_name_scripts, construct_layer_name,
    arch_str_scripts, arch_str_tools, h]

/-- Witness for C8 with no architecture supplied. -/
theorem arch_default_amended_witness :
    (construct_layer_name_scripts (str "collector") none none none none (str "prod") []).2.1
      = str "x86_64 arm64" ∧
    (construct_layer_name (str "collector") none none none none (str "prod") []).2.1
      = str "x86_64" :=
  arch_default_amended (str "collector") none none none none (str "prod") [] rfl

/- ## C9 -/

/-- Within the length limit the description is passed through unchanged. -/
theorem mkDescription_of_le (build_tags : Option Str) (md5 : Str)
    (h : (rawDescription build_tags md5).length ≤ 256) :
    mkDescription build_tags md5 = rawDescription build_tags md5 := by
  unfold mkDescription
  rw [if_neg]
  omega

/-- The content hash is a suffix of the untruncated description. -/
theorem md5_suffix_raw (build_tags : Option Str) (md5 : Str) :
    md5 <:+ rawDescription build_tags md5 :=
  ⟨str "Build Tags: " ++ (if truthyS build_tags then build_tags.getD [] else str "N/A")
    ++ str " | MD5: ", by simp [rawDescription]⟩

set_option maxRecDepth 40000 in
/-- C9 counterexample: with 205 characters of build tags the combined
description exceeds 256 characters, and after truncation the 32-character
hash no longer occurs in the description passed to the registry. -/
theorem description_truncation_loses_hash_cex :
    substrOf md5FF (mkDescription (some longTagsA) md5FF) = false ∧
    (mkDescription (some longTagsA) md5FF).length = 256 := by
  decide

/-- C9 amended: the description embeds the hash whenever the combined
description is within the 256-character limit, in which case it is passed
through unchanged; when it exceeds the limit it is truncated to exactly 256
characters ending in `...`, which can cut the hash off. -/
theorem description_hash_amended (build_tags : Option Str) (md5 : Str) :
    ((rawDescription build_tags md5).length ≤ 256 →
      mkDescription build_tags md5 = rawDescription build_tags md5 ∧
      substrOf md5 (mkDescription build_tags md5) = true) ∧
    (256 < (rawDescription build_tags md5).length →
      (mkDescription build_tags md5).length = 256 ∧
      str "..." <:+ mkDescription build_tags md5) := by
  constructor
  · intro h
    refine ⟨mkDescription_of_le build_tags md5 h, ?_⟩
    rw [mkDescription_of_le build_tags md5 h, substrOf_correct]
    exact (md5_suffix_raw build_tags md5).isInfix
  · intro h
    have hne : (rawDescription build_tags md5).length > 256 := h
    constructor
    · unfold mkDescription
      rw [if_pos hne]
      simp only [List.length_append, List.length_take]
      have : (str "...").length = 3 := rfl
      omega
    · unfold mkDescription
      rw [if_pos hne]
      exact List.suffix_append _ _

/-- Witness for C9 at a short description that is not truncated. -/
theorem description_hash_amended_witness :
    substrOf (str "abc123") (mkDescription none (str "abc123")) = true :=
  ((description_hash_amended none (str "abc123")).1 (by decide)).2

/- ## C3 -/

set_option maxRecDepth 40000 in
/-- C3 counterexample: with 205 characters of build tags, publishing the same
artifact twice creates two registry versions and the second run does not
reuse: the truncated description of the first publish no longer contains the
hash, so the second run's check finds no match. -/
theorem publish_twice_duplicates_cex :
    (runPublishOnce ((runPublishOnce [] md5FF (some longTagsA) (str "arn:v1")).1)
      md5FF (some longTagsA) (str "arn:v2")).2.1 = false ∧
    ((runPublishOnce ((runPublishOnce [] md5FF (some longTagsA) (str "arn:v1")).1)
      md5FF (some longTagsA) (str "arn:v2")).1).length = 2 := by
  decide

/-- C3 amended: provided the combined description stays within the registry's
256-character limit (so the hash survives in the stored description), running
the publish protocol twice with the same artifact hash and name publishes
exactly one new version: the first run publishes, the second run changes
nothing, reports reuse, and returns the first run's version identity. -/
theorem publish_protocol_idempotent_amended (R0 : List LayerInfo) (md5 : Str)
    (tags : Option Str) (arn1 arn2 : Str)
    (hnomatch : ∀ l ∈ R0, substrOf md5 l.description = false)
    (hlen : (rawDescription tags md5).length ≤ 256) :
    (runPublishOnce R0 md5 tags arn1).2.1 = false ∧
    (runPublishOnce R0 md5 tags arn1).1.length = R0.length + 1 ∧
    (runPublishOnce ((runPublishOnce R0 md5 tags arn1).1) md5 tags arn2).1
      = (runPublishOnce R0 md5 tags arn1).1 ∧
    (runPublishOnce ((runPublishOnce R0 md5 tags arn1).1) md5 tags arn2).2.1 = true ∧
    (runPublishOnce ((runPublishOnce R0 md5 tags arn1).1) md5 tags arn2).2.2 = some arn1 := by
  have hfind : R0.find? (fun l => substrOf md5 l.description) = none :=
    List.find?_eq_none.mpr (fun x hx => by simp [hnomatch x hx])
  have hcheck : ∃ x, check_layer_exists (some R0) md5 = (false, x) := by
    cases R0 with
    | nil => exact ⟨none, rfl⟩
    | cons f rest =>
      exact ⟨some f.arn, by simp [check_layer_exists, find_md5_match_eq_find, hfind]⟩
  obtain ⟨x, hx⟩ := hcheck
  have hrun1 : runPublishOnce R0 md5 tags arn1
      = (publish_layer_registry R0 arn1 tags md5, false, some arn1) := by
    simp [runPublishOnce, hx]
  have hdesc : substrOf md5 (mkDescription tags md5) = true := by
    rw [mkDescription_of_le tags md5 hlen, substrOf_correct]
    exact (md5_suffix_raw tags md5).isInfix
  have hcheck2 : check_layer_exists (some (publish_layer_registry R0 arn1 tags md5)) md5
      = (true, some arn1) := by
    simp [publish_layer_registry, check_layer_exists, find_md5_match, hdesc]
  have hrun2 : runPublishOnce (publish_layer_registry R0 arn1 tags md5) md5 tags arn2
      = (publish_layer_registry R0 arn1 tags md5, true, some arn1) := by
    simp [runPublishOnce, hcheck2]
  rw [hrun1]
  refine ⟨rfl, ?_, ?_, ?_, ?_⟩
  · show (publish_layer_registry R0 arn1 tags md5).length = R0.length + 1
    simp [publish_layer_registry]
  · show (runPublishOnce (publish_layer_registry R0 arn1 tags md5) md5 tags arn2).1
      = publish_layer_registry R0 arn1 tags md5
    rw [hrun2]
  · show (runPublishOnce (publish_layer_registry R0 arn1 tags md5) md5 tags arn2).2.1 = true
    rw [hrun2]
  · show (runPublishOnce (publish_layer_registry R0 arn1 tags md5) md5 tags arn2).2.2 = some arn1
    rw [hrun2]

/-- Witness for C3 starting from an empty registry with short build tags. -/
theorem publish_protocol_idempotent_witness :
    (runPublishOnce [] (str "abc123") none (str "arn:v1")).2.1 = false ∧
    (runPublishOnce [] (str "abc123") none (str "arn:v1")).1.length = 1 ∧
    (runPublishOnce ((runPublishOnce [] (str "abc123") none (str "arn:v1")).1)
      (str "abc123") none (str "arn:v2")).1
      = (runPublishOnce [] (str "abc123") none (str "arn:v1")).1 ∧
    (runPublishOnce ((runPublishOnce [] (str "abc123") none (str "arn:v1")).1)
      (str "abc123") none (str "arn:v2")).2.1 = true ∧
    (runPublishOnce ((runPublishOnce [] (str "abc123") none (str "arn:v1")).1)
      (str "abc123") none (str "arn:v2")).2.2 = some (str "arn:v1") :=
  publish_protocol_idempotent_amended [] (str "abc123") none (str "arn:v1") (str "arn:v2")
    (by simp) (by decide)

/- ## C7 -/

/-- Sanitized characters are always in the allowed class. -/
theorem sanChar_allowed (c : Char) : isAllowedChar (sanChar c) = true := by
  unfold sanChar
  split
  · assumption
  · decide

/-- Every character of a sanitized string is in the allowed class. -/
theorem sanitize_allowed (s : Str) : ∀ c ∈ sanitize s, isAllowedChar c = true := by
  intro c hc
  simp only [sanitize, List.mem_map] at hc
  obtain ⟨d, _, rfl⟩ := hc
  exact sanChar_allowed d

/-- An ASCII letter is not an ASCII digit. -/
theorem letter_not_digit (c : Char) (h : isAsciiLetter c = true) : isAsciiDigit c = false := by
  simp only [isAsciiLetter, Bool.or_eq_true, Bool.and_eq_true, decide_eq_true_eq] at h
  rw [Bool.eq_false_iff]
  intro hd
  simp only [isAsciiDigit, Bool.and_eq_true, decide_eq_true_eq] at hd
  rcases h with ⟨h1, h2⟩ | ⟨h1, h2⟩ <;> omega

/-- An ASCII letter is in the allowed class. -/
theorem letter_allowed (c : Char) (h : isAsciiLetter c = true) : isAllowedChar c = true := by
  simp [isAllowedChar, h]

/-- Sanitization keeps an ASCII letter unchanged. -/
theorem sanChar_of_letter (c : Char) (h : isAsciiLetter c = true) : sanChar c = c := by
  unfold sanChar
  rw [if_pos (letter_allowed c h)]

/-- The pre-sanitization layer name extends the base name on the right. -/
theorem layerNameRaw_extends_base (base : Str) (arch dist : Option Str) (lv rg : Str) :
    ∃ tail, layerNameRaw base arch dist lv rg = base ++ tail := by
  refine ⟨(if truthyS arch then str "-" ++ arch.getD [] else [])
    ++ (if truthyS dist then str "-" ++ dist.getD [] else [])
    ++ (if !lv.isEmpty then str "-" ++ sanitize lv else [])
    ++ str "-" ++ rg, ?_⟩
  unfold layerNameRaw
  cases hA : truthyS arch <;> cases hD : truthyS dist <;> cases hV : (!lv.isEmpty) <;>
    simp [hA, hD, hV, List.append_assoc]

/-- C7 counterexample: a base name starting with an underscore survives
sanitization unchanged and the leading-digit guard does not apply, so the
final name does not match the registry pattern of the claim. -/
theorem layer_name_pattern_cex :
    matchesNamePattern
      ((construct_layer_name (str "_x") none none none none (str "prod") []).1) = false := by
  decide

/-- C7 amended: every character of the constructed layer name lies in
`[A-Za-z0-9_-]` and the name never starts with a digit; the full pattern
`^[a-zA-Z][a-zA-Z0-9_-]*$` holds whenever the base name starts with an ASCII
letter (a base name starting with another character defeats it). -/
theorem layer_name_sanitized_amended (base : Str) (arch dist ver coll : Option Str)
    (rg : Str) (ref : Str) :
    (∀ c ∈ (construct_layer_name base arch dist ver coll rg ref).1, isAllowedChar c = true) ∧
    startsWithDigit ((construct_layer_name base arch dist ver coll rg ref).1) = false ∧
    (∀ c₀ rest, base = c₀ :: rest → isAsciiLetter c₀ = true →
      matchesNamePattern ((construct_layer_name base arch dist ver coll rg ref).1) = true) := by
  have hne : (construct_layer_name base arch dist ver coll rg ref).1
      = if startsWithDigit
            (sanitize (layerNameRaw base arch dist (layerVersionChoice ver coll ref) rg)) then
          str "layer-"
            ++ sanitize (layerNameRaw base arch dist (layerVersionChoice ver coll ref) rg)
        else sanitize (layerNameRaw base arch dist (layerVersionChoice ver coll ref) rg) := rfl
  have hlayer : ∀ c ∈ str "layer-", isAllowedChar c = true := by decide
  refine ⟨?_, ?_, ?_⟩
  · intro c hc
    rw [hne] at hc
    cases hsd : startsWithDigit
        (sanitize (layerNameRaw base arch dist (layerVersionChoice ver coll ref) rg)) <;>
      rw [hsd] at hc
    · exact sanitize_allowed _ c (by simpa using hc)
    · rcases List.mem_append.mp (by simpa using hc) with h | h
      · exact hlayer c h
      · exact sanitize_allowed _ c h
  · rw [hne]
    cases hsd : startsWithDigit
        (sanitize (layerNameRaw base arch dist (layerVersionChoice ver coll ref) rg))
    · simpa using hsd
    · simp only [if_pos]
      rfl
  · intro c₀ rest hbase hletter
    subst hbase
    obtain ⟨tail, htail⟩ :=
      layerNameRaw_extends_base (c₀ :: rest) arch dist (layerVersionChoice ver coll ref) rg
    have hsan : sanitize
        (layerNameRaw (c₀ :: rest) arch dist (layerVersionChoice ver coll ref) rg)
        = c₀ :: sanitize (rest ++ tail) := by
      rw [htail, List.cons_append]
      show sanChar c₀ :: sanitize (rest ++ tail) = _
      rw [sanChar_of_letter c₀ hletter]
    have hsd : startsWithDigit (sanitize
        (layerNameRaw (c₀ :: rest) arch dist (layerVersionChoice ver coll ref) rg)) = false := by
      rw [hsan]
      exact letter_not_digit c₀ hletter
    rw [hne, if_neg (by simp [hsd]), hsan]
    show (isAsciiLetter c₀ && (sanitize (rest ++ tail)).all isAllowedChar) = true
    rw [hletter, Bool.true_and, List.all_eq_true]
    intro c hc
    exact sanitize_allowed _ c hc

/-- Witness for C7 at a base name starting with a letter. -/
theorem layer_name_sanitized_witness :
    matchesNamePattern ((construct_layer_name (str "collector") (some (str "amd64"))
      (some (str "clickhouse")) none (some (str "v0.119.0")) (str "prod") []).1) = true :=
  (layer_name_sanitized_amended (str "collector") (some (str "amd64"))
    (some (str "clickhouse")) none (some (str "v0.119.0")) (str "prod") []).2.2
    'c' (str "ollector") rfl (by decide)

/- ## C6 -/

/-- Membership after inserting one module. -/
theorem mem_addUnique (acc : List Str) (x m : Str) :
    m ∈ addUnique acc x ↔ m ∈ acc ∨ m = x := by
  unfold addUnique
  split
  · next h =>
    constructor
    · exact Or.inl
    · rintro (hm | rfl)
      · exact hm
      · simpa using h
  · simp

/-- Membership after inserting a list of modules. -/
theorem mem_foldl_addUnique (mods : List Str) (acc : List Str) (m : Str) :
    m ∈ mods.foldl addUnique acc ↔ m ∈ acc ∨ m ∈ mods := by
  induction mods generalizing acc with
  | nil => simp
  | cons x xs ih => simp [ih, mem_addUnique, or_assoc]

/-- Membership after inserting one entry value. -/
theorem mem_addDepModules (acc : List Str) (v : DepModules) (m : Str) :
    m ∈ addDepModules acc v ↔ m ∈ acc ∨ m ∈ depModuleList v := by
  unfold addDepModules
  exact mem_foldl_addUnique _ _ _

/-- Inserting one module preserves freedom from duplicates. -/
theorem nodup_addUnique (acc : List Str) (x : Str) (h : acc.Nodup) :
    (addUnique acc x).Nodup := by
  unfold addUnique
  split
  · exact h
  · next hc =>
    refine List.Nodup.append h (List.nodup_singleton x) ?_
    intro a ha hax
    rcases List.mem_singleton.mp hax with rfl
    exact absurd (by simpa using ha) (by simpa using hc)

/-- Inserting a list of modules preserves freedom from duplicates. -/
theorem nodup_foldl_addUnique (mods : List Str) (acc : List Str) (h : acc.Nodup) :
    (mods.foldl addUnique acc).Nodup := by
  induction mods generalizing acc with
  | nil => exact h
  | cons x xs ih => exact ih _ (nodup_addUnique _ _ h)

/-- The entry fold of `add_dependencies` preserves freedom from duplicates. -/
theorem nodup_modules_fold (active : List Str) (mappings : List (Str × DepModules))
    (acc : List Str) (h : acc.Nodup) :
    (mappings.foldl
      (fun acc p => if shouldInclude active p.1 then addDepModules acc p.2 else acc)
      acc).Nodup := by
  induction mappings generalizing acc with
  | nil => exact h
  | cons q qs ih =>
    simp only [List.foldl_cons]
    by_cases hq : shouldInclude active q.1 = true
    · rw [if_pos hq]
      exact ih _ (nodup_foldl_addUnique _ _ h)
    · rw [if_neg hq]
      exact ih _ h

/-- Membership in the entry fold of `add_dependencies`. -/
theorem mem_modules_fold (active : List Str) (mappings : List (Str × DepModules))
    (acc : List Str) (m : Str) :
    m ∈ mappings.foldl
        (fun acc p => if shouldInclude active p.1 then addDepModules acc p.2 else acc) acc ↔
      m ∈ acc ∨ ∃ p ∈ mappings, shouldInclude active p.1 = true ∧ m ∈ depModuleList p.2 := by
  induction mappings generalizing acc with
  | nil =>
    constructor
    · exact Or.inl
    · rintro (h | ⟨p, hp, _, _⟩)
      · exact h
      · exact absurd hp (List.not_mem_nil p)
  | cons q qs ih =>
    simp only [List.foldl_cons]
    rw [ih]
    constructor
    · rintro (hm | ⟨p, hp, hs, hmm⟩)
      · by_cases hq : shouldInclude active q.1 = true
        · rw [if_pos hq] at hm
          rcases (mem_addDepModules _ _ _).mp hm with h | h
          · exact Or.inl h
          · exact Or.inr ⟨q, List.mem_cons_self q qs, hq, h⟩
        · rw [if_neg hq] at hm
          exact Or.inl hm
      · exact Or.inr ⟨p, List.mem_cons_of_mem q hp, hs, hmm⟩
    · rintro (hm | ⟨p, hp, hs, hmm⟩)
      · left
        by_cases hq : shouldInclude active q.1 = true
        · rw [if_pos hq]
          exact (mem_addDepModules _ _ _).mpr (Or.inl hm)
        · rw [if_neg hq]
          exact hm
      · rcases List.mem_cons.mp hp with rfl | hp'
        · left
          rw [if_pos hs]
          exact (mem_addDepModules _ _ _).mpr (Or.inr hmm)
        · exact Or.inr ⟨p, hp', hs, hmm⟩

/-- The `modules_to_get` set equals its entry fold (the early return for an
empty table coincides with the fold's value there). -/
theorem modules_to_get_eq_fold (mappings : List (Str × DepModules)) (active : List Str) :
    modules_to_get mappings active
      = mappings.foldl
          (fun acc p => if shouldInclude active p.1 then addDepModules acc p.2 else acc) [] := by
  cases mappings <;> rfl

/-- The inclusion test of `add_dependencies` as a proposition: direct tag
match, global wildcard, or a subgroup wildcard whose prefix the tag shares. -/
theorem shouldInclude_iff (active : List Str) (tag : Str) :
    shouldInclude active tag = true ↔
      (tag ∈ active ∨ str "lambdacomponents.all" ∈ active ∨
        ∃ t ∈ active, str ".all" <:+ t ∧ t ≠ str "lambdacomponents.all"
          ∧ subgroupStem t <+: tag) := by
  simp only [shouldInclude, hasGlobalAll, allSubgroupStems, allSubgroupTags,
    Bool.or_eq_true, List.contains_eq_any_beq, List.any_eq_true, List.mem_map,
    List.mem_filter, Bool.and_eq_true, List.isSuffixOf_iff_suffix,
    List.isPrefixOf_iff_prefix, beq_iff_eq, Bool.not_eq_true']
  constructor
  · rintro ((⟨x, hx, rfl⟩ | ⟨x, hx, rfl⟩) | ⟨p, ⟨t, ⟨ht, hsuf, hne⟩, rfl⟩, hpre⟩)
    · exact Or.inl hx
    · exact Or.inr (Or.inl hx)
    · exact Or.inr (Or.inr ⟨t, ht, hsuf, by simpa using hne, hpre⟩)
  · rintro (h | h | ⟨t, ht, hsuf, hne, hpre⟩)
    · exact Or.inl (Or.inl ⟨tag, h, rfl⟩)
    · exact Or.inl (Or.inr ⟨_, h, rfl⟩)
    · exact Or.inr ⟨subgroupStem t, ⟨t, ⟨ht, hsuf, by simpa using hne⟩, rfl⟩, hpre⟩

/-- C6: a module is in the mapper's output exactly when some table entry
contributes it and that entry's tag is directly active, or the global wildcard
`lambdacomponents.all` is active, or some active subgroup wildcard (a tag
ending in `.all` other than the global one) has a prefix the entry's tag
shares; the output has no duplicates; and an empty table yields the empty
set. -/
theorem add_dependencies_modules_iff (dependency_mappings : List (Str × DepModules))
    (active : List Str) (m : Str) :
    (m ∈ modules_to_get dependency_mappings active ↔
      ∃ p ∈ dependency_mappings, m ∈ depModuleList p.2 ∧
        (p.1 ∈ active ∨ str "lambdacomponents.all" ∈ active ∨
          ∃ t ∈ active, str ".all" <:+ t ∧ t ≠ str "lambdacomponents.all"
            ∧ subgroupStem t <+: p.1)) ∧
    (modules_to_get dependency_mappings active).Nodup ∧
    modules_to_get [] active = [] := by
  refine ⟨?_, ?_, rfl⟩
  · rw [modules_to_get_eq_fold, mem_modules_fold]
    simp only [List.not_mem_nil, false_or]
    constructor
    · rintro ⟨p, hp, hs, hm⟩
      exact ⟨p, hp, hm, (shouldInclude_iff active p.1).mp hs⟩
    · rintro ⟨p, hp, hm, hcond⟩
      exact ⟨p, hp, (shouldInclude_iff active p.1).mpr hcond, hm⟩
  · rw [modules_to_get_eq_fold]
    exact nodup_modules_fold _ _ _ List.nodup_nil

/-- C1: resolving `clickhouse` over the example table returns exactly the
ancestor's tags in order followed by the child's own tag, each exactly once;
and the hard-coded table of `scripts/build_extension_layer.py` agrees: its
`clickhouse` entry equals its `minimal` entry followed by the clickhouse
exporter tag. -/
theorem resolve_clickhouse_example :
    resolve (str "clickhouse") exampleTable =
      Except.ok [str "custom", str "otlp-receiver", str "batch-processor",
                 str "clickhouse-exporter"] ∧
    get_build_tags (str "clickhouse") [] =
      get_build_tags (str "minimal") [] ++ str ",lambdacomponents.exporter.clickhouse" := by
  exact ⟨rfl, rfl⟩
